import Mathlib

/-!
Verification of the Somfy RTS decoder (`src/devices/somfy.c`).

The decoder consumes a capture (an ordered list of demodulated bit rows),
selects a candidate row by its bit length, checks a variant-specific
preamble at the row start, Manchester-decodes 56 data bits, descrambles the
resulting 7 bytes, validates a nibble-folded XOR checksum, and extracts the
semantic fields into a flat record.

Bits are `Bool` (`true` = high), bytes are `Nat` below 256, and the
bitbuffer is a `List (List Bool)`.  Helper primitives of the surrounding
rtl_433 library (`bitbuffer_search`, `bitbuffer_manchester_decode`,
`bitbuffer_extract_bytes`, `xor_bytes`) are not part of the given source
tree; they are modelled from the specification, as marked on each.
-/

namespace SomfyRTS

/-- The fixed 16-entry control label table (`control_str` in the source). -/
def control_str : List String :=
  [ "? (0)",
    "My (1)",
    "Up (2)",
    "My + Up (3)",
    "Down (4)",
    "My + Down (5)",
    "Up + Down (6)",
    "? (7)",
    "Prog (8)",
    "Sun + Flag (9)",
    "Flag (10)",
    "? (11)",
    "? (12)",
    "? (13)",
    "? (14)",
    "? (15)" ]

/-- One byte, MSB first, as a list of 8 bits. -/
def byteToBits (b : Nat) : List Bool :=
  [b.testBit 7, b.testBit 6, b.testBit 5, b.testBit 4,
   b.testBit 3, b.testBit 2, b.testBit 1, b.testBit 0]

/-- The retransmission preamble `"\xf0\xf0\xf0\xf0\xf0\xf0\xf0\xff"`, 64 bits. -/
def somfy_preamble_retrans : List Bool :=
  ([0xf0, 0xf0, 0xf0, 0xf0, 0xf0, 0xf0, 0xf0, 0xff].map byteToBits).flatten

/-- The first-frame preamble `"\xf0\xf0\xff"`, 24 bits. -/
def somfy_preamble_first : List Bool :=
  ([0xf0, 0xf0, 0xff].map byteToBits).flatten

/-- The row-selection loop of `somfy_rts_callback` (source lines 91-107):
scan rows in order; the first row longer than 170 bits selects the
retransmission variant, otherwise the first row longer than 130 bits
selects the first-frame variant.  The result carries
`(is_retransmission, decode_row, data_start, preamble_pattern)`;
`none` models `data_start == 0`, i.e. no candidate row. -/
def somfy_classify : List Nat → Nat → Option (Bool × Nat × Nat × List Bool)
  | [], _ => none
  | r :: rest, i =>
    if r > 170 then some (true, i, 65, somfy_preamble_retrans)
    else if r > 130 then some (false, i, 25, somfy_preamble_first)
    else somfy_classify rest (i + 1)

/-- Modelled from the spec: `bitbuffer_search` performs an exact bit-pattern
search from the given start offset and returns the first bit position at
which the pattern occurs in the row, or the row length when it occurs
nowhere. -/
def bitbuffer_search (row : List Bool) (start : Nat) (pattern : List Bool) : Nat :=
  match (List.range (row.length + 1)).find?
      (fun i => decide (start ≤ i) && ((row.drop i).take pattern.length == pattern)) with
  | some i => i
  | none => row.length

/-- Modelled from the spec: `bitbuffer_manchester_decode` consumes raw bit
pairs from the given position; a `low → high` transition yields logical `1`
(`true`), a `high → low` transition yields logical `0` (`false`), and any
other pair is a decode defect.  `some bits` means the requested number of
logical bits was decoded; `none` models reaching the row end or a defect
first (the source checks `result - data_start < 56`). -/
def bitbuffer_manchester_decode : List Bool → Nat → Option (List Bool)
  | _, 0 => some []
  | raw, n + 1 =>
    match raw with
    | a :: b :: rest =>
      if a = false ∧ b = true then
        (bitbuffer_manchester_decode rest n).map (fun l => true :: l)
      else if a = true ∧ b = false then
        (bitbuffer_manchester_decode rest n).map (fun l => false :: l)
      else none
    | _ => none

/-- 8 bits, MSB first, to one byte. -/
def bitsToByte (bits : List Bool) : Nat :=
  bits.foldl (fun a b => 2 * a + (if b then 1 else 0)) 0

/-- Modelled from the spec: `bitbuffer_extract_bytes` packs the 56 decoded
bits into 7 bytes, byte 0 first, MSB first within each byte. -/
def bitbuffer_extract_bytes (bits : List Bool) : List Nat :=
  (List.range 7).map (fun i => bitsToByte ((bits.drop (8 * i)).take 8))

/-- The descrambling loop (source lines 121-122):
`for (int i = 6; i > 0; i--) message_bytes[i] ^= message_bytes[i-1];`.
Processing runs from high index to low, so each step reads the original
value of `message_bytes[i-1]`. -/
def descramble (b : List Nat) : List Nat :=
  [6, 5, 4, 3, 2, 1].foldl (fun a i => a.set i ((a.getD i 0) ^^^ (a.getD (i - 1) 0))) b

/-- Modelled from the spec: `xor_bytes` XORs the first `n` bytes of the
message together into one byte. -/
def xor_bytes (b : List Nat) (n : Nat) : Nat :=
  (b.take n).foldl (fun a x => a ^^^ x) 0

/-- The nibble fold (source line 126):
`chksum_calc = (chksum_calc & 0xf) ^ (chksum_calc >> 4);`. -/
def foldNib (c : Nat) : Nat :=
  (c &&& 0xf) ^^^ (c >>> 4)

/-- A value of the emitted flat record: string or integer. -/
inductive DataValue
  | str : String → DataValue
  | int : Nat → DataValue
deriving DecidableEq

/-- The `data_make` call (source lines 155-163): the emitted record as an
ordered list of (key, display label, value) triples. -/
def data_make (model : String) (id : Nat) (control : String) (counter : Nat)
    (address : String) (retransmission : String) : List (String × String × DataValue) :=
  [ ("model", "", DataValue.str model),
    ("id", "Id", DataValue.int id),
    ("control", "Control", DataValue.str control),
    ("counter", "Counter", DataValue.int counter),
    ("address", "Address", DataValue.str address),
    ("retransmission", "Retransmission", DataValue.str retransmission),
    ("mic", "Integrity", DataValue.str "CHECKSUM") ]

/-- The `output_fields` array (source lines 171-178). -/
def output_fields : List String :=
  ["model", "control", "counter", "address", "retransmission"]

/-- Result of one decode call: `DECODE_FAIL_SANITY`, `DECODE_FAIL_MIC`, or
a successful decode carrying the emitted record. -/
inductive DecodeResult
  | sanityFail : DecodeResult
  | micFail : DecodeResult
  | success : List (String × String × DataValue) → DecodeResult
deriving DecidableEq

/-- One uppercase hex digit. -/
def hexChar (n : Nat) : Char :=
  if n < 10 then Char.ofNat (48 + n) else Char.ofNat (55 + n)

/-- `snprintf "%02X"` of one byte: two uppercase hex digits. -/
def byteHexUpper (b : Nat) : String :=
  String.mk [hexChar (b / 16), hexChar (b % 16)]

/-- The field-extraction tail of `somfy_rts_callback` (source lines
132-163), run on the validated descrambled bytes. -/
def somfy_output (is_retransmission : Bool) (m : List Nat) : DecodeResult :=
  let control := (m.getD 1 0 &&& 0xf0) >>> 4
  let counter := m.getD 3 0 ||| (m.getD 2 0 <<< 8)
  let address_hex := byteHexUpper (m.getD 4 0) ++ byteHexUpper (m.getD 5 0) ++ byteHexUpper (m.getD 6 0)
  let address_int_le := (m.getD 6 0 <<< 16) ||| (m.getD 5 0 <<< 8) ||| m.getD 4 0
  DecodeResult.success (data_make "Somfy-RTS" address_int_le
    (control_str.getD control "") counter address_hex
    (if is_retransmission then "TRUE" else "FALSE"))

/-- The per-row pipeline of `somfy_rts_callback` after row selection
(source lines 112-163): preamble check, Manchester decode of 56 bits from
`data_start`, descramble, checksum, field extraction. -/
def somfy_decode_frame (is_retransmission : Bool) (row : List Bool)
    (data_start : Nat) (preamble_pattern : List Bool) : DecodeResult :=
  if bitbuffer_search row 0 preamble_pattern ≠ 0 then DecodeResult.sanityFail
  else
    match bitbuffer_manchester_decode (row.drop data_start) 56 with
    | none => DecodeResult.micFail
    | some decoded_bits =>
      let message_bytes := descramble (bitbuffer_extract_bytes decoded_bits)
      let chksum_calc := foldNib (xor_bytes message_bytes 7)
      if chksum_calc ≠ 0 then DecodeResult.micFail
      else somfy_output is_retransmission message_bytes

/-- The whole `somfy_rts_callback` (source lines 70-169) on one capture. -/
def somfy_rts_callback (bitbuffer : List (List Bool)) : DecodeResult :=
  match somfy_classify (bitbuffer.map List.length) 0 with
  | none => DecodeResult.sanityFail
  | some (is_retransmission, decode_row, data_start, preamble_pattern) =>
    somfy_decode_frame is_retransmission (bitbuffer.getD decode_row [])
      data_start preamble_pattern

/-- Modelled from the spec: scrambling XOR-chains each byte with the
previous scrambled byte, with byte 0 (the seed) transmitted unchanged. -/
def scrambleFrom : Nat → List Nat → List Nat
  | _, [] => []
  | prev, x :: rest =>
    let s := x ^^^ prev
    s :: scrambleFrom s rest

/-- Modelled from the spec: the full scrambling transform over a message. -/
def scramble : List Nat → List Nat
  | [] => []
  | b0 :: rest => b0 :: scrambleFrom b0 rest

/-- Modelled from the spec: Manchester encoding, logical `1` becomes the
raw pair `low, high` and logical `0` becomes `high, low`. -/
def manchesterEncode (bits : List Bool) : List Bool :=
  bits.foldr (fun b acc => if b then false :: true :: acc else true :: false :: acc) []

/-- Flip one raw bit of a row. -/
def flipAt (l : List Bool) (i : Nat) : List Bool :=
  l.set i (!(l.getD i false))

/-- A list of bytes as a bit stream, byte 0 first, MSB first. -/
def bytesToBits (l : List Nat) : List Bool :=
  (l.map byteToBits).flatten

/-- The keys of the emitted record, in emission order, of a successful
decode. -/
def resultKeys : DecodeResult → Option (List String)
  | DecodeResult.success l => some (l.map (fun t => t.1))
  | _ => none

/-- The verbatim unknown-command placeholder entry of the label table. -/
def unknown_label (c : Nat) : String :=
  "? (" ++ toString c ++ ")"

/-- Concrete descrambled message of the spec scenario: seed `0xA1`,
control nibble 2 with checksum nibble `0xC`, counter bytes `(0x00, 0x05)`,
address bytes `(0x01, 0x02, 0x03)`. -/
def exampleMessage : List Nat := [0xA1, 0x2C, 0x00, 0x05, 0x01, 0x02, 0x03]

/-- The scenario message as transmitted, i.e. scrambled. -/
def exampleScrambled : List Nat := scramble exampleMessage

/-- The 56 logical data bits of the scenario frame. -/
def exampleBits : List Bool := bytesToBits exampleScrambled

/-- The 112-raw-bit Manchester encoding of the scenario payload. -/
def exampleEncoded : List Bool := manchesterEncode exampleBits

/-- A complete 137-bit first-frame row: 24 preamble bits, one gap bit,
112 raw payload bits. -/
def exampleRow : List Bool := somfy_preamble_first ++ [false] ++ exampleEncoded

/-- A one-row capture holding the scenario frame. -/
def exampleCapture : List (List Bool) := [exampleRow]

/-- A 137-bit row whose first-frame preamble occurs only at bit offset 1,
not at offset 0. -/
def interiorRow : List Bool := false :: (somfy_preamble_first ++ List.replicate 112 false)

/-- A one-row capture holding `interiorRow`. -/
def interiorCapture : List (List Bool) := [interiorRow]

end SomfyRTS

namespace SomfyRTS

/-! ## General XOR and nibble-fold lemmas -/

theorem nxor_left_comm (a b c : Nat) : a ^^^ (b ^^^ c) = b ^^^ (a ^^^ c) := by
  rw [← Nat.xor_assoc, Nat.xor_comm a b, Nat.xor_assoc]

theorem nxor_cancel_left (a b : Nat) : a ^^^ (a ^^^ b) = b := by
  rw [← Nat.xor_assoc, Nat.xor_self, Nat.zero_xor]

/-- Right shift distributes over XOR. -/
theorem shiftRight_xor_distrib (x y n : Nat) :
    (x ^^^ y) >>> n = (x >>> n) ^^^ (y >>> n) := by
  apply Nat.eq_of_testBit_eq
  intro i
  simp [Nat.testBit_shiftRight, Nat.testBit_xor]

/-- The nibble fold is XOR-linear. -/
theorem foldNib_xor (x y : Nat) : foldNib (x ^^^ y) = foldNib x ^^^ foldNib y := by
  unfold foldNib
  rw [Nat.and_xor_distrib_right, shiftRight_xor_distrib]
  simp [Nat.xor_assoc, Nat.xor_comm, nxor_left_comm]

theorem foldl_xor_acc (l : List Nat) : ∀ a : Nat,
    l.foldl (fun a x => a ^^^ x) a = a ^^^ l.foldl (fun a x => a ^^^ x) 0 := by
  induction l with
  | nil => intro a; simp
  | cons x tl ih =>
      intro a
      simp only [List.foldl]
      rw [ih (a ^^^ x), ih (0 ^^^ x)]
      simp [Nat.xor_assoc, Nat.zero_xor]

/-- Replacing one element of a list changes its XOR fold by the XOR of the
old and new values. -/
theorem xor_foldl_set (l : List Nat) : ∀ (j : Nat) (y : Nat), j < l.length →
    (l.set j y).foldl (fun a x => a ^^^ x) 0 =
      l.foldl (fun a x => a ^^^ x) 0 ^^^ l.getD j 0 ^^^ y := by
  induction l with
  | nil => intro j y h; simp at h
  | cons x tl ih =>
      intro j y h
      cases j with
      | zero =>
          simp only [List.set, List.getD, List.foldl]
          rw [foldl_xor_acc tl (0 ^^^ y), foldl_xor_acc tl (0 ^^^ x)]
          simp [Nat.xor_assoc, Nat.xor_comm, nxor_left_comm, nxor_cancel_left,
            Nat.xor_self, Nat.xor_zero, Nat.zero_xor]
      | succ j =>
          simp only [List.set, List.foldl]
          rw [foldl_xor_acc (tl.set j y) (0 ^^^ x), foldl_xor_acc tl (0 ^^^ x),
            ih j y (by simpa using h)]
          simp [List.getD_cons_succ, Nat.xor_assoc, Nat.xor_comm, nxor_left_comm,
            nxor_cancel_left, Nat.xor_self, Nat.xor_zero, Nat.zero_xor]

/-- Any nonzero low-nibble delta has a nonzero nibble fold. -/
theorem foldNib_nibble_delta : ∀ d < 16, d ≠ 0 → foldNib d ≠ 0 := by decide

/-- Any nonzero high-nibble delta has a nonzero nibble fold. -/
theorem foldNib_hi_delta : ∀ e < 16, e ≠ 0 → foldNib (16 * e) ≠ 0 := by decide

/-! ## Descrambling and checksum lemmas -/

theorem descramble_closed (b0 b1 b2 b3 b4 b5 b6 : Nat) :
    descramble [b0, b1, b2, b3, b4, b5, b6] =
      [b0, b1 ^^^ b0, b2 ^^^ b1, b3 ^^^ b2, b4 ^^^ b3, b5 ^^^ b4, b6 ^^^ b5] := rfl

theorem scramble_closed (b0 b1 b2 b3 b4 b5 b6 : Nat) :
    scramble [b0, b1, b2, b3, b4, b5, b6] =
      [b0, b1 ^^^ b0, b2 ^^^ (b1 ^^^ b0), b3 ^^^ (b2 ^^^ (b1 ^^^ b0)),
       b4 ^^^ (b3 ^^^ (b2 ^^^ (b1 ^^^ b0))), b5 ^^^ (b4 ^^^ (b3 ^^^ (b2 ^^^ (b1 ^^^ b0)))),
       b6 ^^^ (b5 ^^^ (b4 ^^^ (b3 ^^^ (b2 ^^^ (b1 ^^^ b0)))))] := rfl

/-- The XOR of the descrambled bytes telescopes to the last scrambled
byte. -/
theorem xor_descr_telescope (b0 b1 b2 b3 b4 b5 b6 : Nat) :
    xor_bytes (descramble [b0, b1, b2, b3, b4, b5, b6]) 7 = b6 := by
  rw [descramble_closed]
  simp [xor_bytes, List.foldl, Nat.xor_assoc, Nat.xor_comm, nxor_left_comm,
    nxor_cancel_left, Nat.xor_self, Nat.xor_zero, Nat.zero_xor]

theorem descramble_length (l : List Nat) : (descramble l).length = l.length := by
  simp [descramble]

theorem extract_bytes_length (bits : List Bool) :
    (bitbuffer_extract_bytes bits).length = 7 := by
  simp [bitbuffer_extract_bytes]

/-! ## Row-scan lemmas -/

/-- Shifting the start index of the row scan shifts the reported row index. -/
theorem somfy_classify_shift (rows : List Nat) : ∀ i : Nat,
    somfy_classify rows (i + 1) =
      (somfy_classify rows i).map (fun t => (t.1, t.2.1 + 1, t.2.2)) := by
  induction rows with
  | nil => intro i; rfl
  | cons r rest ih =>
      intro i
      by_cases h1 : r > 170
      · simp [somfy_classify, h1]
      · by_cases h2 : r > 130
        · simp [somfy_classify, h1, h2]
        · simp [somfy_classify, h1, h2, ih]

/-- If every row length is at most 130 the scan finds no candidate. -/
theorem somfy_classify_none (rows : List Nat) (h : ∀ x ∈ rows, x ≤ 130) :
    ∀ i, somfy_classify rows i = none := by
  induction rows with
  | nil => intro i; rfl
  | cons r rest ih =>
      intro i
      have hr : r ≤ 130 := h r (by simp)
      have h1 : ¬ r > 170 := by omega
      have h2 : ¬ r > 130 := by omega
      simp only [somfy_classify, if_neg h1, if_neg h2]
      exact ih (fun x hx => h x (by simp [hx])) (i + 1)

/-- Soundness of the row scan started at 0: the selected row exists, is
longer than 130 bits, and the variant fields match its length. -/
theorem somfy_classify_sound (rows : List Nat) (retx : Bool) (j ds : Nat) (pat : List Bool)
    (h : somfy_classify rows 0 = some (retx, j, ds, pat)) :
    j < rows.length ∧ rows.getD j 0 > 130 ∧
      (if rows.getD j 0 > 170 then
        retx = true ∧ ds = 65 ∧ pat = somfy_preamble_retrans
       else retx = false ∧ ds = 25 ∧ pat = somfy_preamble_first) := by
  induction rows generalizing retx j ds pat with
  | nil => simp [somfy_classify] at h
  | cons r rest ih =>
      by_cases h1 : r > 170
      · simp [somfy_classify, h1] at h
        obtain ⟨hr, hj, hd, hp⟩ := h
        subst hr; subst hj; subst hd
        refine ⟨by simp, ?_, ?_⟩
        · simpa using (show (130:Nat) < r by omega)
        · simp only [List.getD_cons_zero, if_pos h1]
          exact ⟨trivial, trivial, hp.symm⟩
      · by_cases h2 : r > 130
        · simp [somfy_classify, h1, h2] at h
          obtain ⟨hr, hj, hd, hp⟩ := h
          subst hr; subst hj; subst hd
          refine ⟨by simp, ?_, ?_⟩
          · simpa using h2
          · simp only [List.getD_cons_zero, if_neg h1]
            exact ⟨trivial, trivial, hp.symm⟩
        · rw [somfy_classify] at h
          simp only [if_neg h1, if_neg h2] at h
          rw [somfy_classify_shift rest 0] at h
          match hrest : somfy_classify rest 0 with
          | none => rw [hrest] at h; simp at h
          | some (retx2, j2, ds2, pat2) =>
              rw [hrest] at h
              simp at h
              obtain ⟨hr, hj, hd, hp⟩ := h
              obtain ⟨hjl, hgt, hvar⟩ := ih retx2 j2 ds2 pat2 hrest
              subst hr; subst hd; subst hp
              have hj2 : j = j2 + 1 := by omega
              subst hj2
              refine ⟨by simp; omega, by simpa using hgt, by simpa using hvar⟩

/-- First-match row selection: when the first `k` rows are all at most 130
bits and row `k` exceeds 130 bits, the scan selects row `k`, with the
variant decided by whether row `k` exceeds 170 bits. -/
theorem somfy_classify_first_match (rows : List Nat) :
    ∀ k : Nat, k < rows.length → (∀ l, l < k → rows.getD l 0 ≤ 130) →
    rows.getD k 0 > 130 →
    somfy_classify rows 0 =
      some (if rows.getD k 0 > 170 then (true, k, 65, somfy_preamble_retrans)
            else (false, k, 25, somfy_preamble_first)) := by
  induction rows with
  | nil => intro k hk; simp at hk
  | cons r rest ih =>
      intro k hk hsmall hbig
      cases k with
      | zero =>
          simp only [List.getD_cons_zero] at hbig ⊢
          by_cases h1 : r > 170
          · simp [somfy_classify, h1]
          · simp [somfy_classify, h1, hbig]
      | succ k =>
          have hr : r ≤ 130 := by simpa using hsmall 0 (by omega)
          have h1 : ¬ r > 170 := by omega
          have h2 : ¬ r > 130 := by omega
          rw [somfy_classify]
          simp only [if_neg h1, if_neg h2]
          rw [somfy_classify_shift rest 0]
          rw [ih k (by simpa using hk)
            (fun l hl => by simpa using hsmall (l + 1) (by omega))
            (by simpa using hbig)]
          simp only [List.getD_cons_succ]
          by_cases h3 : 170 < rest[k]?.getD 0
          · simp [h3]
          · simp [h3]

/-! ## Preamble search and Manchester lemmas -/

/-- `bitbuffer_search` from offset 0 returns 0 exactly when the pattern
occurs at the very start of a nonempty row. -/
theorem bitbuffer_search_zero_iff (row pattern : List Bool) (hrow : 0 < row.length) :
    bitbuffer_search row 0 pattern = 0 ↔ row.take pattern.length = pattern := by
  unfold bitbuffer_search
  rw [List.range_succ_eq_map]
  by_cases hp0 : row.take pattern.length = pattern
  · rw [List.find?_cons_of_pos _ (by simp [hp0])]
    simp [hp0]
  · rw [List.find?_cons_of_neg _ (by simp [hp0])]
    constructor
    · intro hfind
      exfalso
      match hfound : List.find?
          (fun i => decide (0 ≤ i) && ((row.drop i).take pattern.length == pattern))
          ((List.range row.length).map Nat.succ) with
      | none =>
          rw [hfound] at hfind
          simp at hfind
          simp [hfind] at hrow
      | some v =>
          rw [hfound] at hfind
          simp at hfind
          have hv := List.mem_of_find?_eq_some hfound
          simp at hv
          obtain ⟨w, hw1, hw2⟩ := hv
          omega
    · intro h
      exact absurd h hp0

/-- Flipping any raw bit within the consumed 2n-bit region of a successful
Manchester decode turns a clean transition pair into a defect pair, so the
decode fails. -/
theorem manchester_flip : ∀ (n : Nat) (raw bits : List Bool) (i : Nat),
    bitbuffer_manchester_decode raw n = some bits → i < 2 * n →
    bitbuffer_manchester_decode (flipAt raw i) n = none := by
  intro n
  induction n with
  | zero => intro raw bits i _ hi; omega
  | succ n ih =>
      intro raw bits i hdec hi
      match raw with
      | [] => simp [bitbuffer_manchester_decode] at hdec
      | [a] => simp [bitbuffer_manchester_decode] at hdec
      | a :: b :: rest =>
          cases a <;> cases b
          · simp [bitbuffer_manchester_decode] at hdec
          · simp only [bitbuffer_manchester_decode] at hdec
            simp at hdec
            match hrest : bitbuffer_manchester_decode rest n with
            | none => rw [hrest] at hdec; simp at hdec
            | some tail =>
                match i with
                | 0 => rfl
                | 1 => rfl
                | i + 2 =>
                    have hflip : flipAt (false :: true :: rest) (i + 2) =
                        false :: true :: flipAt rest i := rfl
                    rw [hflip]
                    simp [bitbuffer_manchester_decode, ih rest tail i hrest (by omega)]
          · simp only [bitbuffer_manchester_decode] at hdec
            simp at hdec
            match hrest : bitbuffer_manchester_decode rest n with
            | none => rw [hrest] at hdec; simp at hdec
            | some tail =>
                match i with
                | 0 => rfl
                | 1 => rfl
                | i + 2 =>
                    have hflip : flipAt (true :: false :: rest) (i + 2) =
                        true :: false :: flipAt rest i := rfl
                    rw [hflip]
                    simp [bitbuffer_manchester_decode, ih rest tail i hrest (by omega)]
          · simp [bitbuffer_manchester_decode] at hdec

/-! ## Pipeline-run lemmas -/

/-- Running the callback once a candidate row is selected. -/
theorem somfy_rts_callback_run (bb : List (List Bool)) (retx : Bool) (j ds : Nat)
    (pat : List Bool)
    (h1 : somfy_classify (bb.map List.length) 0 = some (retx, j, ds, pat)) :
    somfy_rts_callback bb = somfy_decode_frame retx (bb.getD j []) ds pat := by
  unfold somfy_rts_callback
  rw [h1]

/-- The callback fails with `SanityFail` when no candidate row exists. -/
theorem somfy_rts_callback_no_row (bb : List (List Bool))
    (h : somfy_classify (bb.map List.length) 0 = none) :
    somfy_rts_callback bb = DecodeResult.sanityFail := by
  unfold somfy_rts_callback
  rw [h]

/-- Frame decoding reduces to the checksum test once the preamble matches
and the Manchester decode yields 56 bits. -/
theorem somfy_decode_frame_run (retx : Bool) (row : List Bool) (ds : Nat)
    (pat : List Bool) (bits : List Bool)
    (hs : bitbuffer_search row 0 pat = 0)
    (hm : bitbuffer_manchester_decode (row.drop ds) 56 = some bits) :
    somfy_decode_frame retx row ds pat =
      (if foldNib (xor_bytes (descramble (bitbuffer_extract_bytes bits)) 7) ≠ 0
       then DecodeResult.micFail
       else somfy_output retx (descramble (bitbuffer_extract_bytes bits))) := by
  unfold somfy_decode_frame
  rw [if_neg (by simp [hs]), hm]

/-- Frame decoding fails with `SanityFail` when the preamble is not at
offset 0. -/
theorem somfy_decode_frame_sanity (retx : Bool) (row : List Bool) (ds : Nat)
    (pat : List Bool) (hs : bitbuffer_search row 0 pat ≠ 0) :
    somfy_decode_frame retx row ds pat = DecodeResult.sanityFail := by
  unfold somfy_decode_frame
  rw [if_pos hs]

/-- The keys of any record built by `somfy_output`. -/
theorem somfy_output_keys (b : Bool) (m : List Nat)
    (l : List (String × String × DataValue))
    (h : somfy_output b m = DecodeResult.success l) :
    l.map (fun t => t.1) =
      ["model", "id", "control", "counter", "address", "retransmission", "mic"] := by
  unfold somfy_output at h
  simp only [DecodeResult.success.injEq] at h
  subst h
  rfl

/-- Frame decoding fails with `IntegrityFail` when fewer than 56 logical
bits can be Manchester-decoded. -/
theorem somfy_decode_frame_mic_short (retx : Bool) (row : List Bool) (ds : Nat)
    (pat : List Bool) (hs : bitbuffer_search row 0 pat = 0)
    (hm : bitbuffer_manchester_decode (row.drop ds) 56 = none) :
    somfy_decode_frame retx row ds pat = DecodeResult.micFail := by
  unfold somfy_decode_frame
  rw [if_neg (by simp [hs]), hm]

/-- Any successful decode goes through `somfy_output`. -/
theorem somfy_rts_callback_success_shape (bb : List (List Bool))
    (l : List (String × String × DataValue))
    (h : somfy_rts_callback bb = DecodeResult.success l) :
    ∃ (b : Bool) (m : List Nat), somfy_output b m = DecodeResult.success l := by
  match hcl : somfy_classify (bb.map List.length) 0 with
  | none =>
      rw [somfy_rts_callback_no_row bb hcl] at h
      simp at h
  | some (retx, j, ds, pat) =>
      rw [somfy_rts_callback_run bb retx j ds pat hcl] at h
      by_cases hs : bitbuffer_search (bb.getD j []) 0 pat ≠ 0
      · rw [somfy_decode_frame_sanity retx _ ds pat hs] at h
        simp at h
      · have hs0 : bitbuffer_search (bb.getD j []) 0 pat = 0 := by omega
        match hm : bitbuffer_manchester_decode ((bb.getD j []).drop ds) 56 with
        | none =>
            rw [somfy_decode_frame_mic_short retx _ ds pat hs0 hm] at h
            simp at h
        | some bits =>
            rw [somfy_decode_frame_run retx _ ds pat bits hs0 hm] at h
            by_cases hc : foldNib (xor_bytes (descramble (bitbuffer_extract_bytes bits)) 7) ≠ 0
            · rw [if_pos hc] at h
              simp at h
            · rw [if_neg hc] at h
              exact ⟨retx, descramble (bitbuffer_extract_bytes bits), h⟩
/-! ## Claims -/

/-- C1 counterexample: in the capture with row lengths `[150, 200]`, row 1
is longer than 170 bits, yet the decoder selects row 0 (length 150, in
`(130, 170]`) with the First-frame variant, not row 1 with the
Retransmission variant as the claim demands. -/
theorem claim_C1_counterexample :
    somfy_classify [150, 200] 0 = some (false, 0, 25, somfy_preamble_first) ∧
    somfy_classify [150, 200] 0 ≠ some (true, 1, 65, somfy_preamble_retrans) := by
  exact ⟨by decide, by decide⟩

/-- C1 (amended): the decoder selects the first row whose length exceeds
130 bits; the variant of that row is Retransmission (data start 65, 64-bit
preamble) when its own length also exceeds 170 bits, else First frame
(data start 25, 24-bit preamble).  A later row longer than 170 bits never
overrides an earlier row of length in `(130, 170]`. -/
theorem claim_C1 (rows : List Nat) (k : Nat) (hk : k < rows.length)
    (hsmall : ∀ l, l < k → rows.getD l 0 ≤ 130) (hbig : rows.getD k 0 > 130) :
    somfy_classify rows 0 =
      some (if rows.getD k 0 > 170 then (true, k, 65, somfy_preamble_retrans)
            else (false, k, 25, somfy_preamble_first)) :=
  somfy_classify_first_match rows k hk hsmall hbig

/-- C1 witness: concrete first-match selection on row lengths `[150, 200]`. -/
theorem claim_C1_witness :
    somfy_classify [150, 200] 0 = some (false, 0, 25, somfy_preamble_first) := by
  have h := claim_C1 [150, 200] 0 (by decide) (fun l hl => by omega) (by decide)
  simpa using h

/-- C4: descrambling inverts scrambling on every 7-byte message. -/
theorem claim_C4 (b0 b1 b2 b3 b4 b5 b6 : Nat) :
    descramble (scramble [b0, b1, b2, b3, b4, b5, b6]) = [b0, b1, b2, b3, b4, b5, b6] := by
  rw [scramble_closed, descramble_closed]
  simp [Nat.xor_assoc, Nat.xor_comm, nxor_left_comm, nxor_cancel_left,
    Nat.xor_self, Nat.xor_zero, Nat.zero_xor]

/-- C8: a capture in which every row is at most 130 bits long always fails
with `SanityFail`. -/
theorem claim_C8 (bb : List (List Bool)) (h : ∀ row ∈ bb, row.length ≤ 130) :
    somfy_rts_callback bb = DecodeResult.sanityFail := by
  apply somfy_rts_callback_no_row
  apply somfy_classify_none
  intro x hx
  obtain ⟨row, hrow, hlen⟩ := List.mem_map.mp hx
  exact hlen ▸ h row hrow

/-- C8 witness: a capture with a single 130-bit row is rejected. -/
theorem claim_C8_witness :
    somfy_rts_callback [List.replicate 130 true] = DecodeResult.sanityFail := by
  apply claim_C8
  intro row hrow
  simp at hrow
  simp [hrow]

/-- C6 counterexample: control code 15 lies outside the claimed
reserved set `{0, 7, 11, 12, 13, 14}`, yet its table entry is the verbatim
unknown placeholder, not a named command label. -/
theorem claim_C6_counterexample :
    (15 : Nat) ∉ ([0, 7, 11, 12, 13, 14] : List Nat) ∧
    control_str.getD 15 "" = unknown_label 15 := by
  exact ⟨by decide, by decide⟩

/-- C6 (amended): the control label is the entry of the fixed 16-entry
table indexed by the high nibble of descrambled byte 1; codes
0, 7, 11, 12, 13, 14 and 15 render as the verbatim unknown placeholder,
and every other code renders as its named command label. -/
theorem claim_C6 :
    (∀ (b : Bool) (m : List Nat), ∃ id ctr addr rtx, somfy_output b m =
      DecodeResult.success (data_make "Somfy-RTS" id
        (control_str.getD ((m.getD 1 0 &&& 0xf0) >>> 4) "") ctr addr rtx)) ∧
    (∀ c, c < 16 →
      (control_str.getD c "" = unknown_label c ↔
        c ∈ ([0, 7, 11, 12, 13, 14, 15] : List Nat))) ∧
    control_str.getD 1 "" = "My (1)" ∧ control_str.getD 2 "" = "Up (2)" ∧
    control_str.getD 3 "" = "My + Up (3)" ∧ control_str.getD 4 "" = "Down (4)" ∧
    control_str.getD 5 "" = "My + Down (5)" ∧ control_str.getD 6 "" = "Up + Down (6)" ∧
    control_str.getD 8 "" = "Prog (8)" ∧ control_str.getD 9 "" = "Sun + Flag (9)" ∧
    control_str.getD 10 "" = "Flag (10)" := by
  exact ⟨fun b m => ⟨_, _, _, _, rfl⟩, by decide,
    rfl, rfl, rfl, rfl, rfl, rfl, rfl, rfl, rfl⟩

/-- C6 witness: code 0 renders as the unknown placeholder. -/
theorem claim_C6_witness :
    control_str.getD 0 "" = unknown_label 0 :=
  (claim_C6.2.1 0 (by decide)).mpr (by decide)

/-- C10: the XOR of the 7 descrambled bytes telescopes to pre-descramble
byte 6, the checksum test is equivalent to the nibble fold of byte 6 being
0, and XORing any power of two into any single pre-descramble byte 0-5
never changes the computed checksum. -/
theorem claim_C10 (s0 s1 s2 s3 s4 s5 s6 : Nat) :
    xor_bytes (descramble [s0, s1, s2, s3, s4, s5, s6]) 7 = s6 ∧
    (foldNib (xor_bytes (descramble [s0, s1, s2, s3, s4, s5, s6]) 7) = 0 ↔
      foldNib s6 = 0) ∧
    (∀ j k : Nat, j < 6 →
      foldNib (xor_bytes (descramble (([s0, s1, s2, s3, s4, s5, s6] : List Nat).set j
        (([s0, s1, s2, s3, s4, s5, s6] : List Nat).getD j 0 ^^^ 2 ^ k))) 7) =
      foldNib (xor_bytes (descramble [s0, s1, s2, s3, s4, s5, s6]) 7)) := by
  refine ⟨xor_descr_telescope s0 s1 s2 s3 s4 s5 s6, ?_, ?_⟩
  · rw [xor_descr_telescope]
  · intro j k hj
    interval_cases j
    · rw [show ([s0, s1, s2, s3, s4, s5, s6] : List Nat).set 0
          (([s0, s1, s2, s3, s4, s5, s6] : List Nat).getD 0 0 ^^^ 2 ^ k) =
          [s0 ^^^ 2 ^ k, s1, s2, s3, s4, s5, s6] from rfl,
        xor_descr_telescope, xor_descr_telescope]
    · rw [show ([s0, s1, s2, s3, s4, s5, s6] : List Nat).set 1
          (([s0, s1, s2, s3, s4, s5, s6] : List Nat).getD 1 0 ^^^ 2 ^ k) =
          [s0, s1 ^^^ 2 ^ k, s2, s3, s4, s5, s6] from rfl,
        xor_descr_telescope, xor_descr_telescope]
    · rw [show ([s0, s1, s2, s3, s4, s5, s6] : List Nat).set 2
          (([s0, s1, s2, s3, s4, s5, s6] : List Nat).getD 2 0 ^^^ 2 ^ k) =
          [s0, s1, s2 ^^^ 2 ^ k, s3, s4, s5, s6] from rfl,
        xor_descr_telescope, xor_descr_telescope]
    · rw [show ([s0, s1, s2, s3, s4, s5, s6] : List Nat).set 3
          (([s0, s1, s2, s3, s4, s5, s6] : List Nat).getD 3 0 ^^^ 2 ^ k) =
          [s0, s1, s2, s3 ^^^ 2 ^ k, s4, s5, s6] from rfl,
        xor_descr_telescope, xor_descr_telescope]
    · rw [show ([s0, s1, s2, s3, s4, s5, s6] : List Nat).set 4
          (([s0, s1, s2, s3, s4, s5, s6] : List Nat).getD 4 0 ^^^ 2 ^ k) =
          [s0, s1, s2, s3, s4 ^^^ 2 ^ k, s5, s6] from rfl,
        xor_descr_telescope, xor_descr_telescope]
    · rw [show ([s0, s1, s2, s3, s4, s5, s6] : List Nat).set 5
          (([s0, s1, s2, s3, s4, s5, s6] : List Nat).getD 5 0 ^^^ 2 ^ k) =
          [s0, s1, s2, s3, s4, s5 ^^^ 2 ^ k, s6] from rfl,
        xor_descr_telescope, xor_descr_telescope]

/-- C10 witness: flipping bit 0 of pre-descramble byte 0 leaves the
checksum unchanged on a concrete message. -/
theorem claim_C10_witness :
    foldNib (xor_bytes (descramble (([1, 2, 3, 4, 5, 6, 7] : List Nat).set 0
      (([1, 2, 3, 4, 5, 6, 7] : List Nat).getD 0 0 ^^^ 2 ^ 0))) 7) =
    foldNib (xor_bytes (descramble [1, 2, 3, 4, 5, 6, 7]) 7) :=
  (claim_C10 1 2 3 4 5 6 7).2.2 0 0 (by decide)

/-- The nibble-folded checksum detects every corruption confined to a
single nibble of one of the 7 descrambled bytes. -/
theorem checksum_nibble_detect (m : List Nat) (j d : Nat) (hm : m.length = 7)
    (hj : j < 7) (hd0 : d ≠ 0) (hd : d < 16 ∨ ∃ e, e < 16 ∧ d = 16 * e)
    (hz : foldNib (xor_bytes m 7) = 0) :
    foldNib (xor_bytes (m.set j (m.getD j 0 ^^^ d)) 7) ≠ 0 := by
  have htake : m.take 7 = m := List.take_of_length_le (by omega)
  have hset : (m.set j (m.getD j 0 ^^^ d)).take 7 = m.set j (m.getD j 0 ^^^ d) :=
    List.take_of_length_le (by simp [hm])
  unfold xor_bytes at hz ⊢
  rw [htake] at hz
  rw [hset, xor_foldl_set m j _ (by omega)]
  have hfold : m.foldl (fun a x => a ^^^ x) 0 ^^^ m.getD j 0 ^^^ (m.getD j 0 ^^^ d) =
      m.foldl (fun a x => a ^^^ x) 0 ^^^ d := by
    simp [Nat.xor_assoc, nxor_cancel_left]
  rw [hfold, foldNib_xor, hz, Nat.zero_xor]
  rcases hd with h16 | ⟨e, he, hde⟩
  · exact foldNib_nibble_delta d h16 hd0
  · subst hde
    exact foldNib_hi_delta e he (by omega)

set_option maxRecDepth 10000

/-- C2 counterexample: the record emitted for a concrete valid capture
ends with key `mic` (display label `Integrity`), not with a key named
`integrity` as the claim states. -/
theorem claim_C2_counterexample :
    resultKeys (somfy_rts_callback exampleCapture) =
      some ["model", "id", "control", "counter", "address", "retransmission", "mic"] ∧
    resultKeys (somfy_rts_callback exampleCapture) ≠
      some ["model", "id", "control", "counter", "address", "retransmission", "integrity"] := by
  exact ⟨by decide, by decide⟩

/-- C2 (amended): every successful decode emits exactly the keys
`model, id, control, counter, address, retransmission, mic` in exactly
that order and no others; the last key carries display label
`Integrity`. -/
theorem claim_C2 (bb : List (List Bool)) (l : List (String × String × DataValue))
    (h : somfy_rts_callback bb = DecodeResult.success l) :
    l.map (fun t => t.1) =
      ["model", "id", "control", "counter", "address", "retransmission", "mic"] := by
  obtain ⟨b, m, hout⟩ := somfy_rts_callback_success_shape bb l h
  exact somfy_output_keys b m l hout

/-- C2 witness: the concrete valid capture decodes successfully and its
record keys are as amended. -/
theorem claim_C2_witness :
    resultKeys (somfy_rts_callback exampleCapture) =
      some ["model", "id", "control", "counter", "address", "retransmission", "mic"] := by
  match hval : somfy_rts_callback exampleCapture with
  | DecodeResult.sanityFail => exact absurd hval (by decide)
  | DecodeResult.micFail => exact absurd hval (by decide)
  | DecodeResult.success l =>
      rw [resultKeys, claim_C2 exampleCapture l hval]

/-- C3: once a capture reaches the checksum stage with descrambled bytes
`m`, it decodes successfully exactly when the nibble-folded XOR of the 7
bytes is zero; a nonzero fold yields `IntegrityFail`; and corrupting the
transmitted checksum nibble (the low nibble of byte 1) by any nonzero
amount makes the fold nonzero, so such a payload is always rejected. -/
theorem claim_C3 (bb : List (List Bool)) (retx : Bool) (j ds : Nat) (pat : List Bool)
    (bits : List Bool) (m : List Nat)
    (h1 : somfy_classify (bb.map List.length) 0 = some (retx, j, ds, pat))
    (h2 : bitbuffer_search (bb.getD j []) 0 pat = 0)
    (h3 : bitbuffer_manchester_decode ((bb.getD j []).drop ds) 56 = some bits)
    (h4 : descramble (bitbuffer_extract_bytes bits) = m) :
    ((∃ l, somfy_rts_callback bb = DecodeResult.success l) ↔
      foldNib (xor_bytes m 7) = 0) ∧
    (foldNib (xor_bytes m 7) ≠ 0 → somfy_rts_callback bb = DecodeResult.micFail) ∧
    (∀ d, d < 16 → d ≠ 0 → foldNib (xor_bytes m 7) = 0 →
      foldNib (xor_bytes (m.set 1 (m.getD 1 0 ^^^ d)) 7) ≠ 0) := by
  have hrow := somfy_rts_callback_run bb retx j ds pat h1
  have hrun := somfy_decode_frame_run retx (bb.getD j []) ds pat bits h2 h3
  rw [h4] at hrun
  have hm7 : m.length = 7 := by
    rw [← h4, descramble_length, extract_bytes_length]
  refine ⟨⟨?_, ?_⟩, ?_, ?_⟩
  · rintro ⟨l, hl⟩
    by_contra hc
    rw [hrow, hrun, if_pos hc] at hl
    simp at hl
  · intro hc
    rw [hrow, hrun, if_neg (by simp [hc])]
    exact ⟨_, rfl⟩
  · intro hc
    rw [hrow, hrun, if_pos hc]
  · intro d hd hd0 hz
    exact checksum_nibble_detect m 1 d hm7 (by omega) hd0 (Or.inl hd) hz

/-- C3 witness: the concrete valid capture has checksum fold 0 and
decodes successfully. -/
theorem claim_C3_witness :
    foldNib (xor_bytes exampleMessage 7) = 0 ∧
    (∃ l, somfy_rts_callback exampleCapture = DecodeResult.success l) := by
  have h := claim_C3 exampleCapture false 0 25 somfy_preamble_first exampleBits
    exampleMessage (by decide) (by decide) (by decide) (by decide)
  exact ⟨by decide, h.1.mpr (by decide)⟩

/-- C5: flipping any single raw bit of the 112-raw-bit Manchester payload
of a successfully decoded frame makes the Manchester decode fail, and the
nibble-folded checksum detects every corruption confined to a single
nibble (low or high) of any one of the 7 descrambled bytes. -/
theorem claim_C5 :
    (∀ (raw bits : List Bool) (i : Nat),
      bitbuffer_manchester_decode raw 56 = some bits → i < 112 →
      bitbuffer_manchester_decode (flipAt raw i) 56 = none) ∧
    (∀ (m : List Nat) (j d : Nat), m.length = 7 → j < 7 → d ≠ 0 →
      (d < 16 ∨ ∃ e, e < 16 ∧ d = 16 * e) →
      foldNib (xor_bytes m 7) = 0 →
      foldNib (xor_bytes (m.set j (m.getD j 0 ^^^ d)) 7) ≠ 0) := by
  constructor
  · intro raw bits i hdec hi
    exact manchester_flip 56 raw bits i hdec (by omega)
  · intro m j d hm hj hd0 hd hz
    exact checksum_nibble_detect m j d hm hj hd0 hd hz

/-- C5 witness: flipping raw bit 0 of the concrete valid payload breaks
the Manchester decode, and a low-nibble corruption of byte 1 of the
concrete message breaks the checksum. -/
theorem claim_C5_witness :
    bitbuffer_manchester_decode (flipAt exampleEncoded 0) 56 = none ∧
    foldNib (xor_bytes (exampleMessage.set 1 (exampleMessage.getD 1 0 ^^^ 3)) 7) ≠ 0 := by
  exact ⟨claim_C5.1 exampleEncoded exampleBits 0 (by decide) (by decide),
    claim_C5.2 exampleMessage 1 3 (by decide) (by decide) (by decide)
      (Or.inl (by decide)) (by decide)⟩

/-- C7: any frame reaching the field extractor with descrambled bytes
seed `0xA1`, byte 1 `0x2C` (control nibble 2, checksum nibble `0xC`,
making the nibble-folded XOR of all 7 bytes 0), counter bytes
`(0x00, 0x05)` and address bytes `(0x01, 0x02, 0x03)` succeeds and emits
`control = "Up (2)"`, `counter = 5`, `address = "010203"` and
`id = 0x030201`. -/
theorem claim_C7 (bb : List (List Bool)) (retx : Bool) (j ds : Nat) (pat : List Bool)
    (bits : List Bool)
    (h1 : somfy_classify (bb.map List.length) 0 = some (retx, j, ds, pat))
    (h2 : bitbuffer_search (bb.getD j []) 0 pat = 0)
    (h3 : bitbuffer_manchester_decode ((bb.getD j []).drop ds) 56 = some bits)
    (h4 : descramble (bitbuffer_extract_bytes bits) =
      [0xA1, 0x2C, 0x00, 0x05, 0x01, 0x02, 0x03]) :
    somfy_rts_callback bb = DecodeResult.success
      (data_make "Somfy-RTS" 0x030201 "Up (2)" 5 "010203"
        (if retx then "TRUE" else "FALSE")) := by
  have hrow := somfy_rts_callback_run bb retx j ds pat h1
  have hrun := somfy_decode_frame_run retx (bb.getD j []) ds pat bits h2 h3
  rw [h4] at hrun
  rw [hrow, hrun, if_neg (by decide)]
  cases retx <;> rfl

/-- C7 witness: the concrete valid capture emits exactly the expected
record. -/
theorem claim_C7_witness :
    somfy_rts_callback exampleCapture = DecodeResult.success
      (data_make "Somfy-RTS" 0x030201 "Up (2)" 5 "010203" "FALSE") := by
  have h := claim_C7 exampleCapture false 0 25 somfy_preamble_first exampleBits
    (by decide) (by decide) (by decide) (by decide)
  simpa using h

/-- C9: when the selected candidate row does not start with the selected
preamble bit pattern of the selected variant at offset 0, the decode fails with
`SanityFail` and no later stage runs — regardless of whether the pattern
occurs at an interior offset. -/
theorem claim_C9 (bb : List (List Bool)) (retx : Bool) (j ds : Nat) (pat : List Bool)
    (h1 : somfy_classify (bb.map List.length) 0 = some (retx, j, ds, pat))
    (hp : (bb.getD j []).take pat.length ≠ pat) :
    somfy_rts_callback bb = DecodeResult.sanityFail := by
  obtain ⟨hj, hgt, hvar⟩ := somfy_classify_sound (bb.map List.length) retx j ds pat h1
  have hjb : j < bb.length := by simpa using hj
  have hlen : (bb.map List.length).getD j 0 = (bb.getD j []).length := by
    rw [List.getD_eq_getElem?_getD, List.getD_eq_getElem?_getD, List.getElem?_map,
      List.getElem?_eq_getElem hjb]
    rfl
  have hpos : 0 < (bb.getD j []).length := by
    rw [hlen] at hgt
    omega
  have hs : bitbuffer_search (bb.getD j []) 0 pat ≠ 0 := by
    intro h0
    exact hp ((bitbuffer_search_zero_iff (bb.getD j []) pat hpos).mp h0)
  rw [somfy_rts_callback_run bb retx j ds pat h1]
  exact somfy_decode_frame_sanity retx (bb.getD j []) ds pat hs

/-- C9 witness: a 137-bit row carrying the first-frame preamble only from
bit offset 1 is rejected with `SanityFail` even though the pattern occurs
at that interior offset. -/
theorem claim_C9_witness :
    (interiorRow.drop 1).take somfy_preamble_first.length = somfy_preamble_first ∧
    somfy_rts_callback interiorCapture = DecodeResult.sanityFail := by
  exact ⟨by decide,
    claim_C9 interiorCapture false 0 25 somfy_preamble_first (by decide) (by decide)⟩

end SomfyRTS
